import Mathlib

/-!
# Verification of the hwmon sensor-discovery program (src/main.rs)

A shallow embedding of the program's data model and operations, followed by
theorems settling the specification's claims about it.

Modelling conventions:
* Filesystem paths are lists of components (`Path`); the program's `PathBuf`
  push/pop/file_name operations become list operations.
* All I/O is routed through an explicit `FS` record of oracles, one per
  filesystem primitive the program uses (`fs::read_to_string`, `fs::read_dir`,
  `File::open`, `FileExt::read_at`).
* `io::Error` is abstracted to `IOErr`, keeping only the distinction the
  program inspects (`ErrorKind::NotFound` versus everything else).
* Rust `f64` arithmetic is modelled by exact rational arithmetic (`ℚ`); the
  only operations performed are `u32 as f64` (exact) and division by `1000.0`.
* A Rust panic (failed `assert_eq!`, failed `unwrap`, out-of-range slice /
  `usize` underflow) is modelled by a dedicated `panic` constructor of the
  result type of the operation in which it occurs.
* The regex character class `\d` is modelled as the ASCII digits `0-9`; sysfs
  file names are ASCII, and every claim quantifies over ASCII patterns.
-/

namespace Teahin

/-- A filesystem path, as its list of components. -/
abbrev Path := List String

/-- `io::Error`, abstracted to the only distinction the program makes:
`ErrorKind::NotFound` versus any other error. -/
inductive IOErr
  | notFound
  | other
  deriving DecidableEq

/-- The filesystem oracles consumed by the program: one per I/O primitive it
calls. `readAt` returns the bytes deposited in the buffer by
`read_at(&mut buf, 0)` (their count is the returned `n`). -/
structure FS where
  readToString : Path → Except IOErr String
  readDir : Path → Except IOErr (List String)
  openFile : Path → Except IOErr Unit
  readAt : Path → Except IOErr (List Nat)

/-! ## The regex `([A-z]+)(\d+)_`

The pattern used by `Input::new` via `Regex::captures`, which finds the
leftmost match anywhere in the haystack (it is not anchored). Note the class
is `[A-z]` — the scalar range U+0041..U+007A — which contains the six
punctuation characters between `Z` and `a` (including `_`) in addition to the
ASCII letters.

Because `[A-z]` and `\d` are disjoint character classes, greedy matching
needs no backtracking: at a given start position the match, when it exists,
is the maximal `[A-z]` run followed by a maximal nonempty digit run followed
by `_`. -/

/-- The class `[A-z]`: scalar values U+0041 through U+007A. -/
def isAzChar (c : Char) : Bool := 0x41 ≤ c.toNat && c.toNat ≤ 0x7A

/-- The class `\d`, restricted to ASCII: `0-9`. -/
def isDigitCh (c : Char) : Bool := 0x30 ≤ c.toNat && c.toNat ≤ 0x39

/-- Attempt to match `([A-z]+)(\d+)_` at the start of `s`; on success return
the two capture groups (letter run, digit run). -/
def matchHere (s : List Char) : Option (List Char × List Char) :=
  let ls := s.takeWhile isAzChar
  let r1 := s.dropWhile isAzChar
  if ls.isEmpty then none
  else
    let ds := r1.takeWhile isDigitCh
    let r2 := r1.dropWhile isDigitCh
    if ds.isEmpty then none
    else
      match r2 with
      | '_' :: _ => some (ls, ds)
      | _ => none

/-- Leftmost match of `([A-z]+)(\d+)_` anywhere in the haystack, as performed
by `RE.captures`. On success returns `(prefix before the match, group 1,
group 2)`; the match's `end()` of group 2 sits after `prefix ++ g1 ++ g2`. -/
def findMatch : List Char → Option (List Char × List Char × List Char)
  | [] => none
  | c :: cs =>
    match matchHere (c :: cs) with
    | some (ls, ds) => some ([], ls, ds)
    | none =>
      match findMatch cs with
      | some (p, ls, ds) => some (c :: p, ls, ds)
      | none => none

/-! ## Sensor kinds and `Input` -/

/-- The source's `enum Type` (renamed: `Type` is reserved in Lean). -/
inductive SensorType
  | Voltage
  | Temp
  | Fan
  | Other (m : Option String)
  deriving DecidableEq

/-- The source's `struct Input`. The retained open `File` handle is
represented by the path it was opened on. -/
structure Input where
  f : Path
  label : String
  typ : SensorType
  deriving DecidableEq

/-- The failure cases of `Input::new` (an `anyhow::Result`): the two `bail!`
sites and propagated I/O errors. -/
inductive NewError
  | incorrectPath
  | malformedName
  | ioError (e : IOErr)
  deriving DecidableEq

/-- Outcome of `Input::new`: success, error return, or a process panic
(the `assert_eq!` on the label file's trailing newline). -/
inductive NewResult
  | ok (i : Input)
  | err (e : NewError)
  | panic
  deriving DecidableEq

/-- The tag-to-kind table inside `Input::new`. -/
def typeOfTag (tag : String) : SensorType :=
  if tag = "in" then .Voltage
  else if tag = "fan" then .Fan
  else if tag = "temp" then .Temp
  else .Other (some tag)

/-- The tail of `Input::new` after the regex match has succeeded with
capture prefix `pre` and groups `ls`, `ds` (the source function's body from
the `typ` computation onward). `name` is the file name sliced from its start
to the end of group 2, i.e. `pre ++ ls ++ ds`. The sibling `<name>_label`
file is read: `NotFound` falls back to `name` as the label, any other error
propagates, and on success the content's last character is popped and
asserted to be `'\n'` (process panic otherwise). Finally the input file is
opened (errors propagate). -/
def newAfterMatch (fs : FS) (input_abs_path : Path) (pre ls ds : List Char) :
    NewResult :=
  let typ := typeOfTag (String.mk ls)
  let name : String := String.mk (pre ++ ls ++ ds)
  let label_path : Path := input_abs_path.dropLast ++ [name ++ "_label"]
  match fs.readToString label_path with
  | .error .notFound =>
    match fs.openFile input_abs_path with
    | .error e => .err (.ioError e)
    | .ok _ => .ok ⟨input_abs_path, name, typ⟩
  | .error e => .err (.ioError e)
  | .ok s =>
    if s.data.getLast? = some '\n' then
      match fs.openFile input_abs_path with
      | .error e => .err (.ioError e)
      | .ok _ => .ok ⟨input_abs_path, String.mk s.data.dropLast, typ⟩
    else .panic

/-- `Input::new`: take the path's file name (`bail!` with "incorrect path"
when absent); find the leftmost `([A-z]+)(\d+)_` match in it (`bail!` with
"incorrect path to input" — `MalformedName` — when there is none); then
proceed with `newAfterMatch` (the rest of the same source function, split
here only so the proofs can factor). -/
def Input.new (fs : FS) (input_abs_path : Path) : NewResult :=
  match input_abs_path.getLast? with
  | none => .err .incorrectPath
  | some input_file_name =>
    match findMatch input_file_name.data with
    | none => .err .malformedName
    | some (pre, ls, ds) => newAfterMatch fs input_abs_path pre ls ds

/-- The spec's letter class `[A-Za-z]`: ASCII letters only. -/
def isAsciiLetter (c : Char) : Bool :=
  (0x41 ≤ c.toNat && c.toNat ≤ 0x5A) || (0x61 ≤ c.toNat && c.toNat ≤ 0x7A)

/-- Modelled from the spec's words, for comparison only (claim C5): the
anchored pattern `^[A-Za-z]+\d+_` — one or more ASCII letters, then one or
more digits, then an underscore, starting at the beginning of the name. -/
def specAnchoredPattern (s : List Char) : Bool :=
  let ls := s.takeWhile isAsciiLetter
  let r1 := s.dropWhile isAsciiLetter
  let ds := r1.takeWhile isDigitCh
  let r2 := r1.dropWhile isDigitCh
  !ls.isEmpty && !ds.isEmpty && r2.head? = some '_'

/-! ## `Hwmon` and group loading -/

/-- The source's `struct Hwmon`. -/
structure Hwmon where
  name : String
  inputs : List Input
  deriving DecidableEq

/-- Outcome of `Hwmon::load` (an `io::Result`, plus the possibility that a
panic inside a nested `Input::new` call aborts the load). -/
inductive LoadResult
  | ok (h : Hwmon)
  | err (e : IOErr)
  | panic
  deriving DecidableEq

/-- Whether an `Input::new` outcome is a panic. -/
def NewResult.isPanic : NewResult → Bool
  | .panic => true
  | _ => false

/-- `str::ends_with("_input")`: the last six characters are `_input`.
(When the name is shorter than six characters the compared lists have
different lengths, so the test is `false`, as in the source.) -/
def endsWithInput (n : String) : Bool :=
  n.data.drop (n.data.length - 6) = "_input".data

/-- `Hwmon::load`. Reads `<dir>/name` (errors propagate), lists the
directory (errors propagate), and for every entry whose name ends in
`_input` calls `Input::new`, pushing the `Result` onto a local vector.
The source then returns `Hwmon { name, inputs: Vec::new() }` — the local
vector is dropped, so the returned `inputs` is always empty; a panic inside
any `Input::new` call still aborts the whole load. (Entries whose names are
not valid UTF-8 are skipped by the source; the model's names are strings,
so that case does not arise.) -/
def Hwmon.load (fs : FS) (dir_abs_path : Path) : LoadResult :=
  match fs.readToString (dir_abs_path ++ ["name"]) with
  | .error e => .err e
  | .ok name =>
    match fs.readDir dir_abs_path with
    | .error e => .err e
    | .ok entries =>
      let results :=
        (entries.filter (fun n => endsWithInput n)).map
          (fun n => Input.new fs (dir_abs_path ++ [n]))
      if results.any NewResult.isPanic then .panic
      else .ok { name := name, inputs := [] }

/-! ## Value read, scaling, unit -/

/-- Whether a byte is a UTF-8 continuation byte (`0x80..=0xBF`). -/
def utf8Cont (b : Nat) : Bool := 0x80 ≤ b && b ≤ 0xBF

/-- UTF-8 validation and decoding to scalar values, with the exact
acceptance set of `str::from_utf8` (rejecting overlong forms, surrogates,
and values above U+10FFFF). -/
def utf8Decode? : List Nat → Option (List Nat)
  | [] => some []
  | b :: bs =>
    if b ≤ 0x7F then
      match utf8Decode? bs with
      | none => none
      | some t => some (b :: t)
    else if 0xC2 ≤ b && b ≤ 0xDF then
      match bs with
      | b2 :: rest =>
        if utf8Cont b2 then
          match utf8Decode? rest with
          | none => none
          | some t => some (((b - 0xC0) * 0x40 + (b2 - 0x80)) :: t)
        else none
      | _ => none
    else if 0xE0 ≤ b && b ≤ 0xEF then
      match bs with
      | b2 :: b3 :: rest =>
        if utf8Cont b2 && utf8Cont b3 then
          let cp := (b - 0xE0) * 0x1000 + (b2 - 0x80) * 0x40 + (b3 - 0x80)
          if 0x800 ≤ cp && !(0xD800 ≤ cp && cp ≤ 0xDFFF) then
            match utf8Decode? rest with
            | none => none
            | some t => some (cp :: t)
          else none
        else none
      | _ => none
    else if 0xF0 ≤ b && b ≤ 0xF4 then
      match bs with
      | b2 :: b3 :: b4 :: rest =>
        if utf8Cont b2 && utf8Cont b3 && utf8Cont b4 then
          let cp := (b - 0xF0) * 0x40000 + (b2 - 0x80) * 0x1000 +
            (b3 - 0x80) * 0x40 + (b4 - 0x80)
          if 0x10000 ≤ cp && cp ≤ 0x10FFFF then
            match utf8Decode? rest with
            | none => none
            | some t => some (cp :: t)
          else none
        else none
      | _ => none
    else none

/-- Whether a scalar value is an ASCII digit. -/
def isDigitCp (c : Nat) : Bool := 0x30 ≤ c && c ≤ 0x39

/-- `str::parse::<u32>`: an optional leading `+`, then one or more ASCII
digits, with the value bounded by `u32::MAX`; anything else is an error. -/
def parseU32? (cps : List Nat) : Option Nat :=
  let digits :=
    match cps with
    | 0x2B :: rest => rest
    | l => l
  if digits ≠ [] ∧ digits.all isDigitCp then
    let v := digits.foldl (fun acc c => 10 * acc + (c - 0x30)) 0
    if v < 2 ^ 32 then some v else none
  else none

/-- Outcome of `Updateable::update`: a value, or a process panic (slice
index underflow or a failed `unwrap`). The `f64` is modelled as `ℚ`. -/
inductive UpdateResult
  | value (v : ℚ)
  | panic
  deriving DecidableEq

/-- `Updateable::update` for `Input`. A read error is printed to stderr and
`0.0` is returned. On a successful read of `n` bytes the source slices
`&buf[0..n - 1]`: when `n = 0` the `usize` subtraction underflows and the
program panics; otherwise the first `n - 1` bytes are decoded as UTF-8 and
parsed as `u32`, each step panicking on failure (`unwrap`), and the raw
value is divided by `1000.0` for `Temp` and returned unscaled otherwise. -/
def Input.update (fs : FS) (i : Input) : UpdateResult :=
  match fs.readAt i.f with
  | .error _ => .value 0
  | .ok bytes =>
    if bytes.length = 0 then .panic
    else
      match utf8Decode? (bytes.take (bytes.length - 1)) with
      | none => .panic
      | some cps =>
        match parseU32? cps with
        | none => .panic
        | some r =>
          match i.typ with
          | .Temp => .value ((r : ℚ) / 1000)
          | _ => .value (r : ℚ)

/-- `Updateable::unit` for `Input`. The `Temp` arm's source literal has the
bytes `C3 82 C2 B0 43`, i.e. the three characters U+00C2, U+00B0, `C`. -/
def Input.unit (i : Input) : String :=
  match i.typ with
  | .Voltage => "V"
  | .Fan => " RPM"
  | .Temp => "Â°C"
  | .Other none => ""
  | .Other (some s) => s

/-! ## Concrete filesystems used to instantiate the theorems -/

/-- A filesystem with no label files: every text read reports `NotFound`,
every open succeeds. -/
def fsNoLabel : FS where
  readToString := fun _ => .error .notFound
  readDir := fun _ => .error .other
  openFile := fun _ => .ok ()
  readAt := fun _ => .error .other

/-- A group directory `hw0` containing a name file and one well-formed
input file `temp1_input` with no label file. -/
def fsGroup : FS where
  readToString := fun p =>
    if p = ["hw0", "name"] then .ok "coretemp\n" else .error .notFound
  readDir := fun p =>
    if p = ["hw0"] then .ok ["temp1_input"] else .error .other
  openFile := fun _ => .ok ()
  readAt := fun _ => .error .other

/-- A value file holding the non-numeric text `abc\n` at one path, with
reads failing everywhere else. -/
def fsBadValue : FS where
  readToString := fun _ => .error .notFound
  readDir := fun _ => .error .other
  openFile := fun _ => .ok ()
  readAt := fun p =>
    if p = ["hw0", "temp1_input"] then .ok [97, 98, 99, 10] else .error .other

/-- A value file holding the text `45230\n` everywhere. -/
def fsTempValue : FS where
  readToString := fun _ => .error .notFound
  readDir := fun _ => .error .other
  openFile := fun _ => .ok ()
  readAt := fun _ => .ok [52, 53, 50, 51, 48, 10]

/-- A label file holding `CPU Core\n` everywhere, with opens succeeding. -/
def fsLabeled : FS where
  readToString := fun _ => .ok "CPU Core\n"
  readDir := fun _ => .error .other
  openFile := fun _ => .ok ()
  readAt := fun _ => .error .other

/-- A value file whose positioned read succeeds with zero bytes. -/
def fsEmptyValue : FS where
  readToString := fun _ => .error .notFound
  readDir := fun _ => .error .other
  openFile := fun _ => .ok ()
  readAt := fun _ => .ok []

/-! ## Matching lemmas -/

theorem isAsciiLetter_isAzChar {c : Char} (h : isAsciiLetter c = true) :
    isAzChar c = true := by
  simp only [isAsciiLetter, Bool.or_eq_true, Bool.and_eq_true, decide_eq_true_eq] at h
  simp only [isAzChar, Bool.and_eq_true, decide_eq_true_eq]
  omega

theorem isDigitCh_not_isAzChar {c : Char} (h : isDigitCh c = true) :
    isAzChar c = false := by
  simp only [isDigitCh, Bool.and_eq_true, decide_eq_true_eq] at h
  rw [← Bool.not_eq_true]
  intro hAz
  simp only [isAzChar, Bool.and_eq_true, decide_eq_true_eq] at hAz
  omega

theorem takeWhile_dropWhile_app (p : Char → Bool) (L rest : List Char)
    (hL : ∀ c ∈ L, p c = true)
    (hr : ∀ r rs, rest = r :: rs → p r = false) :
    (L ++ rest).takeWhile p = L ∧ (L ++ rest).dropWhile p = rest := by
  induction L with
  | nil =>
    cases rest with
    | nil => simp
    | cons r rs => simp [List.takeWhile_cons, List.dropWhile_cons, hr r rs rfl]
  | cons c cs ih =>
    have hc : p c = true := hL c (List.mem_cons_self c cs)
    have h2 := ih (fun x hx => hL x (List.mem_cons_of_mem c hx))
    simp [List.takeWhile_cons, List.dropWhile_cons, hc, h2.1, h2.2]

theorem matchHere_anchored (L D rest : List Char) (hL : L ≠ [])
    (hLa : ∀ c ∈ L, isAzChar c = true)
    (hD : D ≠ []) (hDd : ∀ c ∈ D, isDigitCh c = true) :
    matchHere (L ++ (D ++ '_' :: rest)) = some (L, D) := by
  obtain ⟨d, ds, rfl⟩ := List.exists_cons_of_ne_nil hD
  have hdAz : ∀ r rs, (d :: ds) ++ '_' :: rest = r :: rs → isAzChar r = false := by
    intro r rs hEq
    have hr : d = r := by simpa using congrArg List.head? hEq
    exact hr ▸ isDigitCh_not_isAzChar (hDd d (List.mem_cons_self d ds))
  have h1 := takeWhile_dropWhile_app isAzChar L ((d :: ds) ++ '_' :: rest) hLa hdAz
  have hUnd : ∀ r rs, '_' :: rest = r :: rs → isDigitCh r = false := by
    intro r rs hEq
    have hr : '_' = r := by simpa using congrArg List.head? hEq
    rw [← hr]
    decide
  have h2 := takeWhile_dropWhile_app isDigitCh (d :: ds) ('_' :: rest) hDd hUnd
  have hLe : L.isEmpty = false := by
    cases L with
    | nil => exact absurd rfl hL
    | cons a as => rfl
  simp only [matchHere, h1.1, h1.2, h2.1, h2.2, hLe, List.isEmpty_cons,
    Bool.false_eq_true, if_false]

theorem findMatch_anchored (L D rest : List Char) (hL : L ≠ [])
    (hLa : ∀ c ∈ L, isAzChar c = true)
    (hD : D ≠ []) (hDd : ∀ c ∈ D, isDigitCh c = true) :
    findMatch (L ++ (D ++ '_' :: rest)) = some ([], L, D) := by
  have hm := matchHere_anchored L D rest hL hLa hD hDd
  obtain ⟨c, cs, rfl⟩ := List.exists_cons_of_ne_nil hL
  rw [List.cons_append] at hm ⊢
  simp only [findMatch, hm]

/-- Reduction of `Input.new` once the file name and its regex match are
known. -/
theorem Input.new_some (fs : FS) (path : Path) (fname : String)
    (pre ls ds : List Char)
    (hlast : path.getLast? = some fname)
    (hfm : findMatch fname.data = some (pre, ls, ds)) :
    Input.new fs path = newAfterMatch fs path pre ls ds := by
  simp only [Input.new, hlast, hfm]

/-- Reduction of the post-match tail when the label file is absent and the
open succeeds: the label falls back to `pre ++ ls ++ ds`. -/
theorem newAfterMatch_notFound (fs : FS) (path : Path) (pre ls ds : List Char)
    (hread : fs.readToString (path.dropLast ++ [String.mk (pre ++ ls ++ ds) ++ "_label"]) =
      .error .notFound)
    (hopen : fs.openFile path = .ok ()) :
    newAfterMatch fs path pre ls ds =
      .ok ⟨path, String.mk (pre ++ ls ++ ds), typeOfTag (String.mk ls)⟩ := by
  simp only [newAfterMatch, hread, hopen]

/-- Reduction of the post-match tail when the label-file read fails with an
error other than `NotFound`: the error propagates. -/
theorem newAfterMatch_otherErr (fs : FS) (path : Path) (pre ls ds : List Char)
    (hread : fs.readToString (path.dropLast ++ [String.mk (pre ++ ls ++ ds) ++ "_label"]) =
      .error .other) :
    newAfterMatch fs path pre ls ds = .err (.ioError .other) := by
  simp only [newAfterMatch, hread]

/-- Reduction of the post-match tail when the label file is read and its
content ends with a newline: exactly that last character is removed. -/
theorem newAfterMatch_label (fs : FS) (path : Path) (pre ls ds : List Char)
    (s : String)
    (hread : fs.readToString (path.dropLast ++ [String.mk (pre ++ ls ++ ds) ++ "_label"]) =
      .ok s)
    (hnl : s.data.getLast? = some '\n')
    (hopen : fs.openFile path = .ok ()) :
    newAfterMatch fs path pre ls ds =
      .ok ⟨path, String.mk s.data.dropLast, typeOfTag (String.mk ls)⟩ := by
  simp only [newAfterMatch, hread, hopen]
  rw [if_pos hnl]

/-- Reduction of the post-match tail when the label file is read but its
content does not end with a newline: the `assert_eq!` fails (panic). -/
theorem newAfterMatch_label_noNewline (fs : FS) (path : Path)
    (pre ls ds : List Char) (s : String)
    (hread : fs.readToString (path.dropLast ++ [String.mk (pre ++ ls ++ ds) ++ "_label"]) =
      .ok s)
    (hnl : s.data.getLast? ≠ some '\n') :
    newAfterMatch fs path pre ls ds = .panic := by
  simp only [newAfterMatch, hread]
  rw [if_neg hnl]

/-- No branch of the post-match tail of `Input::new` reports
`MalformedName`. -/
theorem newAfterMatch_ne_malformed (fs : FS) (path : Path)
    (pre ls ds : List Char) :
    newAfterMatch fs path pre ls ds ≠ .err .malformedName := by
  simp only [newAfterMatch]
  cases fs.readToString (path.dropLast ++ [String.mk (pre ++ ls ++ ds) ++ "_label"]) with
  | error e =>
    cases e with
    | notFound =>
      cases fs.openFile path with
      | error e2 => simp
      | ok u => simp
    | other => simp
  | ok s =>
    by_cases hnl : s.data.getLast? = some '\n'
    · cases fs.openFile path with
      | error e2 => simp [hnl]
      | ok u => simp [hnl]
    · simp [hnl]

/-! ## Claims -/

/-- C1. The claim — the loaded group's `inputs` collection holds exactly the
successfully constructed readings of the directory — is the spec's stated
intent, but the code drops the vector it collects and returns
`inputs: Vec::new()`: at a group directory holding one well-formed
`temp1_input` file whose construction succeeds, the load still returns an
empty `inputs` collection. -/
theorem C1_inputs_discarded :
    Input.new fsGroup ["hw0", "temp1_input"] =
      .ok ⟨["hw0", "temp1_input"], "temp1", SensorType.Temp⟩ ∧
    Hwmon.load fsGroup ["hw0"] = .ok ⟨"coretemp\n", []⟩ := by
  decide

/-- C2. On a read error, `update` reports to stderr and returns `0.0`
(second conjunct), but on value text that fails to parse as an unsigned
decimal integer it panics through `unwrap` instead of degrading to `0.0`
(first conjunct, at value text `abc\n`): the claim describes the spec's
target behavior, which the code does not implement. -/
theorem C2_update_failure_behavior :
    Input.update fsBadValue ⟨["hw0", "temp1_input"], "temp1", SensorType.Temp⟩ =
      .panic ∧
    Input.update fsBadValue ⟨["hw1", "temp1_input"], "temp1", SensorType.Temp⟩ =
      .value 0 := by
  decide

/-- C3 counterexample: for a Temperature reading, `unit()` returns the
source literal — the three characters U+00C2, U+00B0, `C` — which is not the
two-character string `°C` the claim states. -/
theorem C3_counterexample :
    Input.unit ⟨["hw0", "temp1_input"], "temp1", SensorType.Temp⟩ = "Â°C" ∧
    ("Â°C" : String) ≠ "°C" := by
  decide

/-- C3 (amended): `unit()` is the fixed table Voltage ↦ `V`, Fan ↦ ` RPM`,
Temperature ↦ `Â°C` (U+00C2 U+00B0 `C`, as in the source literal),
Other with a tag ↦ the tag, Other without ↦ the empty string. -/
theorem C3_unit_table (i : Input) :
    i.unit =
      match i.typ with
      | .Voltage => "V"
      | .Fan => " RPM"
      | .Temp => "Â°C"
      | .Other none => ""
      | .Other (some s) => s :=
  rfl

/-- C4 counterexample: with a name file containing `coretemp\n`, the loaded
group's name is `coretemp\n` — the trailing newline is not removed. -/
theorem C4_counterexample :
    Hwmon.load fsGroup ["hw0"] = .ok ⟨"coretemp\n", []⟩ ∧
    ("coretemp\n" : String) ≠ "coretemp" := by
  decide

/-- C4 (amended): the stored name equals the *full* content of the group's
`name` file, trailing newline included (`read_to_string` with no trim). -/
theorem C4_name_untrimmed (fs : FS) (dir : Path) (content : String) (h : Hwmon)
    (hname : fs.readToString (dir ++ ["name"]) = .ok content)
    (hload : Hwmon.load fs dir = .ok h) :
    h.name = content := by
  cases hdir : fs.readDir dir with
  | error e =>
    have hred : Hwmon.load fs dir = .err e := by
      simp only [Hwmon.load, hname, hdir]
    rw [hred] at hload
    exact absurd hload (by simp)
  | ok entries =>
    have hred : Hwmon.load fs dir =
        (if ((entries.filter (fun n => endsWithInput n)).map
            (fun n => Input.new fs (dir ++ [n]))).any NewResult.isPanic then
          .panic
        else .ok ⟨content, []⟩) := by
      simp only [Hwmon.load, hname, hdir]
    rw [hred] at hload
    split at hload
    · exact absurd hload (by simp)
    · injection hload with h1
      rw [← h1]

theorem C4_witness : (Hwmon.mk "coretemp\n" []).name = "coretemp\n" :=
  C4_name_untrimmed fsGroup ["hw0"] "coretemp\n" ⟨"coretemp\n", []⟩ rfl (by decide)

/-- C5 counterexample: `1temp2_input` does not match the anchored pattern
`^[A-Za-z]+\d+_` (it starts with a digit), yet construction succeeds — the
code's regex search is unanchored and matches at position 1. -/
theorem C5_counterexample :
    specAnchoredPattern "1temp2_input".data = false ∧
    Input.new fsNoLabel ["hw0", "1temp2_input"] =
      .ok ⟨["hw0", "1temp2_input"], "1temp2", SensorType.Temp⟩ := by
  decide

/-- C5 (amended): construction fails with `MalformedName` exactly when the
regex `([A-z]+)(\d+)_` — class `A`–`z`, searched anywhere in the filename,
not only at its start — finds no match. -/
theorem C5_malformed_iff (fs : FS) (path : Path) (fname : String)
    (hlast : path.getLast? = some fname) :
    Input.new fs path = .err .malformedName ↔ findMatch fname.data = none := by
  cases hfm : findMatch fname.data with
  | none =>
    simp only [Input.new, hlast, hfm]
  | some t =>
    obtain ⟨pre, ls, ds⟩ := t
    simp only [Input.new, hlast, hfm]
    constructor
    · intro hE
      exact absurd hE (newAfterMatch_ne_malformed fs path pre ls ds)
    · intro hnone
      exact absurd hnone (by simp)

theorem C5_witness : Input.new fsNoLabel ["hw0", "xx_input"] = .err .malformedName :=
  (C5_malformed_iff fsNoLabel ["hw0", "xx_input"] "xx_input" rfl).mpr (by decide)

/-- C6. For a file name of the form `L ++ D ++ "_input"` with `L` one or
more ASCII letters and `D` one or more digits, the regex matches at the
start with groups exactly `L` and `D`, and (under a filesystem where the
label file is absent and the open succeeds) construction succeeds with the
kind given by the tag table: `in` ↦ Voltage, `fan` ↦ Fan, `temp` ↦
Temperature, and any other letter run `L` ↦ `Other` carrying `L` itself. -/
theorem C6_tag_table (fs : FS) (path : Path) (L D : List Char)
    (hL : L ≠ []) (hLa : ∀ c ∈ L, isAsciiLetter c = true)
    (hD : D ≠ []) (hDd : ∀ c ∈ D, isDigitCh c = true)
    (hlast : path.getLast? = some (String.mk (L ++ D ++ "_input".data)))
    (hlabel : fs.readToString (path.dropLast ++ [String.mk (L ++ D) ++ "_label"]) =
      .error .notFound)
    (hopen : fs.openFile path = .ok ()) :
    Input.new fs path = .ok ⟨path, String.mk (L ++ D),
      if String.mk L = "in" then SensorType.Voltage
      else if String.mk L = "fan" then SensorType.Fan
      else if String.mk L = "temp" then SensorType.Temp
      else SensorType.Other (some (String.mk L))⟩ := by
  have hfm : findMatch (String.mk (L ++ D ++ "_input".data)).data = some ([], L, D) := by
    have h1 : L ++ D ++ "_input".data = L ++ (D ++ '_' :: "input".data) := by
      rw [List.append_assoc]
    show findMatch (L ++ D ++ "_input".data) = some ([], L, D)
    rw [h1]
    exact findMatch_anchored L D "input".data hL
      (fun c hc => isAsciiLetter_isAzChar (hLa c hc)) hD hDd
  have hlabel' : fs.readToString
      (path.dropLast ++ [String.mk ([] ++ L ++ D) ++ "_label"]) = .error .notFound := hlabel
  rw [Input.new_some fs path (String.mk (L ++ D ++ "_input".data)) [] L D hlast hfm,
    newAfterMatch_notFound fs path [] L D hlabel' hopen]
  show NewResult.ok ⟨path, String.mk (L ++ D), typeOfTag (String.mk L)⟩ = _
  rw [typeOfTag]

theorem C6_witness :
    Input.new fsNoLabel ["hw0", "fan2_input"] =
      .ok ⟨["hw0", "fan2_input"], "fan2", SensorType.Fan⟩ := by
  have h := C6_tag_table fsNoLabel ["hw0", "fan2_input"] "fan".data ['2']
    (by decide) (by decide) (by decide) (by decide) rfl rfl rfl
  exact h

/-- C7. When the positioned read succeeds and the sliced value text decodes
and parses to the raw unsigned integer `r`, `update` returns `r / 1000` for
a Temperature reading and the unscaled `r` for every other kind (`f64`
modelled exactly as `ℚ`). -/
theorem C7_scaling (fs : FS) (f : Path) (label : String) (typ : SensorType)
    (bytes cps : List Nat) (r : Nat)
    (hread : fs.readAt f = .ok bytes) (hn : ¬bytes.length = 0)
    (hdec : utf8Decode? (bytes.take (bytes.length - 1)) = some cps)
    (hparse : parseU32? cps = some r) :
    Input.update fs ⟨f, label, typ⟩ =
      .value (if typ = SensorType.Temp then (r : ℚ) / 1000 else (r : ℚ)) := by
  have hred : Input.update fs ⟨f, label, typ⟩ =
      (match typ with
      | SensorType.Temp => .value ((r : ℚ) / 1000)
      | _ => .value (r : ℚ)) := by
    simp only [Input.update, hread, hn, if_false, hdec, hparse]
  rw [hred]
  cases typ <;> simp

theorem C7_witness :
    Input.update fsTempValue ⟨["hw0", "temp1_input"], "temp1", SensorType.Temp⟩ =
      .value (4523 / 100 : ℚ) := by
  have h := C7_scaling fsTempValue ["hw0", "temp1_input"] "temp1" SensorType.Temp
    [52, 53, 50, 51, 48, 10] [52, 53, 50, 51, 48] 45230 rfl (by decide) (by decide)
    (by decide)
  rw [h, if_pos rfl]
  norm_num

/-- C8. When the sibling label file is present: if its content ends with a
newline, the label is the content with exactly that one last character
removed; if it does not end with a newline, the `assert_eq!` fails and the
construction panics rather than succeeding. -/
theorem C8_label_trailing_newline (fs : FS) (path : Path) (fname : String)
    (pre ls ds : List Char) (s : String)
    (hlast : path.getLast? = some fname)
    (hfm : findMatch fname.data = some (pre, ls, ds))
    (hread : fs.readToString (path.dropLast ++ [String.mk (pre ++ ls ++ ds) ++ "_label"]) =
      .ok s) :
    (s.data.getLast? = some '\n' → fs.openFile path = .ok () →
      Input.new fs path =
        .ok ⟨path, String.mk s.data.dropLast, typeOfTag (String.mk ls)⟩) ∧
    (s.data.getLast? ≠ some '\n' → Input.new fs path = .panic) := by
  constructor
  · intro hnl hopen
    rw [Input.new_some fs path fname pre ls ds hlast hfm,
      newAfterMatch_label fs path pre ls ds s hread hnl hopen]
  · intro hnl
    rw [Input.new_some fs path fname pre ls ds hlast hfm,
      newAfterMatch_label_noNewline fs path pre ls ds s hread hnl]

theorem C8_witness :
    Input.new fsLabeled ["hw0", "temp1_input"] =
      .ok ⟨["hw0", "temp1_input"], "CPU Core", SensorType.Temp⟩ := by
  have h := (C8_label_trailing_newline fsLabeled ["hw0", "temp1_input"] "temp1_input"
    [] "temp".data ['1'] "CPU Core\n" rfl (by decide) rfl).1 (by decide) rfl
  exact h

/-- C9 counterexample: for `0fan3_input` with no label file, construction
succeeds and the label is `0fan3` — the filename prefix up to the end of the
digit run — which differs from `fan3`, the concatenation of the letter run
and the digit run that the claim states. -/
theorem C9_counterexample :
    Input.new fsNoLabel ["hw0", "0fan3_input"] =
      .ok ⟨["hw0", "0fan3_input"], "0fan3", SensorType.Fan⟩ ∧
    ("0fan3" : String) ≠ "fan3" := by
  decide

/-- C9 (amended): when the label file is absent (`NotFound`), the label
falls back to the filename prefix ending at the matched digit run,
`pre ++ ls ++ ds` — which equals letter run ++ digit run only when the match
starts at the beginning (`pre = []`); any label-read error other than
`NotFound` makes construction fail with that error. -/
theorem C9_label_fallback (fs : FS) (path : Path) (fname : String)
    (pre ls ds : List Char)
    (hlast : path.getLast? = some fname)
    (hfm : findMatch fname.data = some (pre, ls, ds)) :
    (fs.readToString (path.dropLast ++ [String.mk (pre ++ ls ++ ds) ++ "_label"]) =
        .error .notFound →
      fs.openFile path = .ok () →
      Input.new fs path =
        .ok ⟨path, String.mk (pre ++ ls ++ ds), typeOfTag (String.mk ls)⟩) ∧
    (fs.readToString (path.dropLast ++ [String.mk (pre ++ ls ++ ds) ++ "_label"]) =
        .error .other →
      Input.new fs path = .err (.ioError .other)) := by
  constructor
  · intro hread hopen
    rw [Input.new_some fs path fname pre ls ds hlast hfm,
      newAfterMatch_notFound fs path pre ls ds hread hopen]
  · intro hread
    rw [Input.new_some fs path fname pre ls ds hlast hfm,
      newAfterMatch_otherErr fs path pre ls ds hread]

theorem C9_witness :
    Input.new fsNoLabel ["hw0", "temp1_input"] =
      .ok ⟨["hw0", "temp1_input"], "temp1", SensorType.Temp⟩ := by
  have h := (C9_label_fallback fsNoLabel ["hw0", "temp1_input"] "temp1_input"
    [] "temp".data ['1'] rfl (by decide)).1 rfl rfl
  exact h

/-- C10. When the positioned read succeeds with zero bytes (an empty file —
a successful read, not an I/O error), the slice bound `n - 1` underflows and
`update` panics instead of returning any value. -/
theorem C10_empty_read_panics (fs : FS) (i : Input)
    (hread : fs.readAt i.f = .ok []) :
    Input.update fs i = .panic ∧ ∀ v, Input.update fs i ≠ .value v := by
  have h : Input.update fs i = .panic := by
    simp only [Input.update, hread, List.length_nil, if_true]
  exact ⟨h, fun v hv => by rw [h] at hv; cases hv⟩

theorem C10_witness :
    Input.update fsEmptyValue ⟨["hw0", "temp1_input"], "temp1", SensorType.Temp⟩ =
      .panic :=
  (C10_empty_read_panics fsEmptyValue
    ⟨["hw0", "temp1_input"], "temp1", SensorType.Temp⟩ rfl).1

end Teahin
